import Mathlib

/- Shallow embedding of the prayer-event timeline engine of
   time.aishamasjid.uk: lib/prayer-calculations.ts and lib/prayer-data.ts
   (pure functions) and the timer bookkeeping of
   hooks/use-prayer-page-state.ts (as an explicit state machine).

   A time string "HH:MM" belonging to the fixed calendar date of a timeline
   is represented by the epoch-millisecond instant that
   `new Date(dateString + "T" + timeString)` evaluates to; an `undefined`
   time string is `none`.  JavaScript numeric truthiness is modelled
   explicitly: the timestamp `0` is falsy, exactly as in the source, and
   `parseTimeToMs` maps an absent time string to `0`. -/

set_option linter.unusedVariables false

/-- One prayer's pair of legs in a `CombinedPrayerTimes` structure
(lib/types/prayer-times.ts, interface `PrayerTime`); values are the parsed
epoch-millisecond instants of the underlying "HH:MM" strings. -/
structure PrayerTime where
  athan : Option Int
  iqamah : Option Int
deriving DecidableEq, Repr

/-- Combined prayer times for a single day (lib/types/prayer-times.ts,
interface `CombinedPrayerTimes`).  `jumuah1`/`jumuah2` are optional in the
TypeScript interface but `getCombinedPrayerTimes` always populates them with
a (possibly all-`undefined`) pair, which is what this model captures. -/
structure CombinedPrayerTimes where
  date : String
  fajr : PrayerTime
  sunrise : PrayerTime
  dhuhr : PrayerTime
  jumuah1 : PrayerTime
  jumuah2 : PrayerTime
  asr : PrayerTime
  maghrib : PrayerTime
  isha : PrayerTime
deriving DecidableEq, Repr

/-- `PRAYER_ORDER` from lib/prayer-calculations.ts: iteration order of the
millisecond-based locators. -/
def PRAYER_ORDER : List String :=
  ["fajr", "sunrise", "dhuhr", "jumuah1", "jumuah2", "asr", "maghrib", "isha"]

/-- The prayer-valued entries of a `CombinedPrayerTimes` object in object-key
order.  Every timeline the repository builds lists its keys in this order
(the `empty` literal of `getCombinedPrayerTimes` and all test fixtures), so
`Object.entries` enumeration minus the `date` key (removed by the
`typeof time !== "object"` guard) is exactly this list. -/
def entriesOf (pt : CombinedPrayerTimes) : List (String × PrayerTime) :=
  [("fajr", pt.fajr), ("sunrise", pt.sunrise), ("dhuhr", pt.dhuhr),
   ("jumuah1", pt.jumuah1), ("jumuah2", pt.jumuah2), ("asr", pt.asr),
   ("maghrib", pt.maghrib), ("isha", pt.isha)]

/-- Result of `getNextPrayer` (lib/prayer-calculations.ts). -/
structure NextPrayerResult where
  prayer : String
  athan : Option Int
deriving DecidableEq, Repr

/-- The find-callback of `getNextPrayer`: a prayer qualifies when a present
athan leg is still in the future or a present iqamah leg is still in the
future (the `!athan && !iqamah` early `false` is subsumed). -/
def nextLegQualifies (cur : Int) (t : PrayerTime) : Bool :=
  (match t.athan with
   | some a => decide (cur < a)
   | none => false) ||
  (match t.iqamah with
   | some i => decide (cur < i)
   | none => false)

/-- `getNextPrayer` from lib/prayer-calculations.ts: first entry (in object
order) whose athan or iqamah has not yet passed; after everything, the fajr
sentinel carrying today's fajr athan. -/
def getNextPrayer (pt : CombinedPrayerTimes) (cur : Int) : NextPrayerResult :=
  match (entriesOf pt).find? (fun e => nextLegQualifies cur e.2) with
  | some e => ⟨e.1, e.2.athan⟩
  | none => ⟨"fajr", pt.fajr.athan⟩

/-- One value of the `ParsedPrayerTimestamps` record
(lib/prayer-calculations.ts): `athan` is a plain number (0 when the source
string was absent), `iqamah` is `number | null`. -/
structure PrayerTimesMs where
  athan : Int
  iqamah : Option Int
deriving DecidableEq, Repr

/-- `ParsedPrayerTimestamps`: a string-indexed object, modelled as a partial
map. -/
abbrev ParsedPrayerTimestamps := String → Option PrayerTimesMs

/-- JavaScript truthiness of the `iqamah : number | null` field:
`null` and `0` are falsy. -/
def iqTruthy : Option Int → Bool
  | none => false
  | some i => decide (i ≠ 0)

/-- The `for (const prayer of PRAYER_ORDER)` loop body of `getNextPrayerMs`. -/
def nextPrayerMsGo (pt : ParsedPrayerTimestamps) (cur : Int) : List String → String
  | [] => "fajr"
  | p :: rest =>
    match pt p with
    | none => nextPrayerMsGo pt cur rest
    | some times =>
      if times.athan = 0 ∧ iqTruthy times.iqamah = false then
        nextPrayerMsGo pt cur rest
      else if times.athan ≠ 0 ∧ cur < times.athan then p
      else
        match times.iqamah with
        | some i => if i ≠ 0 ∧ cur < i then p else nextPrayerMsGo pt cur rest
        | none => nextPrayerMsGo pt cur rest

/-- `getNextPrayerMs` from lib/prayer-calculations.ts. -/
def getNextPrayerMs (pt : ParsedPrayerTimestamps) (cur : Int) : String :=
  nextPrayerMsGo pt cur PRAYER_ORDER

/-- `athanMs = times.athan || times.iqamah || 0` — JavaScript `||` chain on
a number and a `number | null`. -/
def jsOrElse (a : Int) (b : Option Int) : Int :=
  if a ≠ 0 then a
  else
    match b with
    | some x => if x ≠ 0 then x else 0
    | none => 0

/-- Result of `getPreviousPrayerMs` (interface `PreviousPrayerMsResult`). -/
structure PreviousPrayerMsResult where
  prayer : String
  athanMs : Int
  iqamahMs : Option Int
deriving DecidableEq, Repr

/-- The `prayersWithTimes` list that `getPreviousPrayerMs` builds: prayers of
`PRAYER_ORDER` with a truthy leg, each with its effective start
`times.athan || times.iqamah || 0`. -/
def prevEntries (pt : ParsedPrayerTimestamps) : List PreviousPrayerMsResult :=
  PRAYER_ORDER.filterMap (fun p =>
    match pt p with
    | none => none
    | some times =>
      if times.athan = 0 ∧ iqTruthy times.iqamah = false then none
      else some ⟨p, jsOrElse times.athan times.iqamah, times.iqamah⟩)

/-- Stable insertion into a descending-by-`athanMs` list: the inserted,
originally-earlier element goes before every element with a key less than or
equal to its own. -/
def insertAthanDesc (e : PreviousPrayerMsResult) :
    List PreviousPrayerMsResult → List PreviousPrayerMsResult
  | [] => [e]
  | b :: t => if b.athanMs ≤ e.athanMs then e :: b :: t else b :: insertAthanDesc e t

/-- `prayersWithTimes.sort((a, b) => b.athanMs - a.athanMs)`: ECMAScript sort
is stable, so it is the stable descending sort by `athanMs`. -/
def sortAthanDesc : List PreviousPrayerMsResult → List PreviousPrayerMsResult
  | [] => []
  | a :: t => insertAthanDesc a (sortAthanDesc t)

/-- `getPreviousPrayerMs` from lib/prayer-calculations.ts: sort the entries
by effective start descending and take the first whose effective start is at
or before `currentTimeMs`. -/
def getPreviousPrayerMs (pt : ParsedPrayerTimestamps) (cur : Int) :
    Option PreviousPrayerMsResult :=
  (sortAthanDesc (prevEntries pt)).find? (fun p => decide (p.athanMs ≤ cur))

/-- Result of `getPreviousPrayer`: `athan` is always a valid `Date` (string
present by construction), `iqamah` is `new Date(date + "T" + undefined)` —
an Invalid Date — when the leg is absent, modelled as `none`. -/
structure PreviousPrayerResult where
  prayer : String
  athan : Int
  iqamah : Option Int
deriving DecidableEq, Repr

/-- The filtered and mapped entry list of `getPreviousPrayer`: presence here
is the `!== undefined` check, and the effective start is
`prayerTime.athan ?? prayerTime.iqamah`. -/
def prevEntriesOf (pt : CombinedPrayerTimes) : List PreviousPrayerResult :=
  (entriesOf pt).filterMap (fun e =>
    match e.2.athan, e.2.iqamah with
    | none, none => none
    | some a, iq => some ⟨e.1, a, iq⟩
    | none, some i => some ⟨e.1, i, some i⟩)

/-- Stable insertion into an ascending-by-`athan` list. -/
def insertAthanAsc (e : PreviousPrayerResult) :
    List PreviousPrayerResult → List PreviousPrayerResult
  | [] => [e]
  | b :: t => if e.athan ≤ b.athan then e :: b :: t else b :: insertAthanAsc e t

/-- `.sort((a, b) => a.athan.getTime() - b.athan.getTime())`: stable
ascending sort by the effective start. -/
def sortAthanAsc : List PreviousPrayerResult → List PreviousPrayerResult
  | [] => []
  | a :: t => insertAthanAsc a (sortAthanAsc t)

/-- `getPreviousPrayer` from lib/prayer-calculations.ts: sort ascending,
reverse, and find the first entry whose effective start has passed. -/
def getPreviousPrayer (pt : CombinedPrayerTimes) (cur : Int) :
    Option PreviousPrayerResult :=
  ((sortAthanAsc (prevEntriesOf pt)).reverse).find? (fun p => decide (p.athan ≤ cur))

/-- `PrayerHoldingDurations` (lib/prayer-calculations.ts): per-prayer holding
durations in milliseconds. -/
structure PrayerHoldingDurations where
  fajr : Int
  sunrise : Int
  dhuhr : Int
  jumuah1 : Int
  jumuah2 : Int
  asr : Int
  maghrib : Int
  isha : Int
deriving DecidableEq, Repr

/-- `DEFAULT_PRAYER_HOLDING_DURATIONS` from lib/prayer-calculations.ts. -/
def DEFAULT_PRAYER_HOLDING_DURATIONS : PrayerHoldingDurations where
  fajr := 15 * 60 * 1000
  sunrise := 0
  dhuhr := 10 * 60 * 1000
  jumuah1 := 20 * 60 * 1000
  jumuah2 := 20 * 60 * 1000
  asr := 10 * 60 * 1000
  maghrib := 15 * 60 * 1000
  isha := 15 * 60 * 1000

/-- The indexing `durations[prayerKey]` for an arbitrary string key: a
`PrayerHoldingDurations` object has exactly the eight prayer properties, so
any other key yields `undefined`. -/
def durationsLookup (d : PrayerHoldingDurations) (prayer : String) : Option Int :=
  if prayer = "fajr" then some d.fajr
  else if prayer = "sunrise" then some d.sunrise
  else if prayer = "dhuhr" then some d.dhuhr
  else if prayer = "jumuah1" then some d.jumuah1
  else if prayer = "jumuah2" then some d.jumuah2
  else if prayer = "asr" then some d.asr
  else if prayer = "maghrib" then some d.maghrib
  else if prayer = "isha" then some d.isha
  else none

/-- `getPrayerHoldingDuration` from lib/prayer-calculations.ts:
`durations[prayerKey] ?? DEFAULT_PRAYER_HOLDING_DURATIONS.dhuhr`.  The TS
default parameter `durations = DEFAULT_PRAYER_HOLDING_DURATIONS` is modelled
by call sites passing the default explicitly. -/
def getPrayerHoldingDuration (prayer : String) (durations : PrayerHoldingDurations) : Int :=
  (durationsLookup durations prayer).getD DEFAULT_PRAYER_HOLDING_DURATIONS.dhuhr

/-- The `holdingDurationMsOrPrayer : number | string` union parameter of
`isWithinPrayerHoldingPeriodMs`. -/
inductive HoldingDurationArg where
  | ms (v : Int)
  | byPrayer (p : String)
deriving DecidableEq, Repr

/-- `isWithinPrayerHoldingPeriodMs` from lib/prayer-calculations.ts.
`durations` is the optional fourth parameter; when the duration is looked up
by prayer name and `durations` is `undefined`, `getPrayerHoldingDuration`
falls back to its own default table. -/
def isWithinPrayerHoldingPeriodMs (iqamahMs : Option Int) (cur : Int)
    (arg : HoldingDurationArg) (durations : Option PrayerHoldingDurations) : Bool :=
  match iqamahMs with
  | none => false
  | some iq =>
    if iq = 0 then false
    else
      let holdingDurationMs :=
        match arg with
        | .ms v => v
        | .byPrayer p =>
          getPrayerHoldingDuration p (durations.getD DEFAULT_PRAYER_HOLDING_DURATIONS)
      decide (iq ≤ cur ∧ cur < iq + holdingDurationMs)

/-- `String(n).padStart(2, "0")`. -/
def pad2 (n : Int) : String :=
  let s := toString n
  if s.length < 2 then "0" ++ s else s

/-- `formatTimeToGo` from lib/prayer-calculations.ts, with JavaScript
`Math.floor` of a real division as `Int.fdiv` and the sign-of-dividend
remainder `%` as `Int.tmod`. -/
def formatTimeToGo (seconds : Int) : String :=
  pad2 (Int.fdiv seconds 3600) ++ ":" ++ pad2 (Int.fdiv (Int.tmod seconds 3600) 60)
    ++ ":" ++ pad2 (Int.tmod seconds 60)

/-- `calculateCountdownSeconds` from lib/prayer-calculations.ts:
`Math.floor((target - current) / 1000)`. -/
def calculateCountdownSeconds (targetTime cur : Int) : Int :=
  Int.fdiv (targetTime - cur) 1000

/-- The countdown string the hook renders (use-prayer-page-state.ts line
208-209): `formatTimeToGo(timeToGoInSeconds + 1)` with
`timeToGoInSeconds = Math.floor((targetTimeMs - currentTimeMs) / 1000)`. -/
def displayedCountdown (targetTime cur : Int) : String :=
  formatTimeToGo (calculateCountdownSeconds targetTime cur + 1)

/-- `parseTimeToMs` (use-prayer-page-state.ts): an absent time string parses
to `0`; a present one parses to its instant, which in this model the string
already denotes. -/
def parseTimeToMs (timeStr : Option Int) : Int :=
  timeStr.getD 0

/-- `parsePrayerTimesToMs` (use-prayer-page-state.ts).  `tomorrowFajrAthanMs`
is the parse of today's fajr athan string against tomorrow's date string;
when that string is `undefined`, `parseTimeToMs` yields `0` instead.
When `jumuah1` has an iqamah (Fridays), `dhuhr` is deliberately skipped. -/
def parsePrayerTimesToMs (pt : CombinedPrayerTimes) (tomorrowFajrAthanMs : Int) :
    ParsedPrayerTimestamps :=
  fun key =>
    let jumuah1Active := pt.jumuah1.iqamah ≠ none
    let entry : PrayerTime → Option PrayerTimesMs := fun details =>
      some ⟨parseTimeToMs (details.athan <|> details.iqamah), details.iqamah⟩
    if key = "fajr" then entry pt.fajr
    else if key = "sunrise" then entry pt.sunrise
    else if key = "dhuhr" then (if jumuah1Active then none else entry pt.dhuhr)
    else if key = "jumuah1" then entry pt.jumuah1
    else if key = "jumuah2" then entry pt.jumuah2
    else if key = "asr" then entry pt.asr
    else if key = "maghrib" then entry pt.maghrib
    else if key = "isha" then entry pt.isha
    else if key = "tomorrowFajr" then
      some ⟨match pt.fajr.athan with
            | some _ => tomorrowFajrAthanMs
            | none => 0, none⟩
    else none

/-- The countdown target decision of the hook's main effect
(use-prayer-page-state.ts lines 182-206). -/
structure CountdownDecision where
  targetTimeMs : Int
  isCountingToIqamah : Bool
deriving DecidableEq, Repr

/-- The target-selection logic of the main effect, as a pure function of the
parsed timestamps, the next-prayer key and the current instant.  `none`
models the early return (no state update) when the next prayer's entry is
missing or both of its legs are falsy. -/
def countdownDecision (pt : ParsedPrayerTimestamps) (nextPrayerKey : String)
    (cur : Int) : Option CountdownDecision :=
  match pt nextPrayerKey with
  | none => none
  | some times =>
    if times.athan = 0 ∧ iqTruthy times.iqamah = false then none
    else
      let ishaTimeMs : Int :=
        match pt "isha" with
        | some isha =>
          match isha.iqamah with
          | some x => x
          | none => isha.athan
        | none => 0
      let nextPrayerAthanMs := jsOrElse times.athan times.iqamah
      if ishaTimeMs ≤ cur then
        some ⟨(match pt "tomorrowFajr" with
               | some t => t.athan
               | none => 0), false⟩
      else if nextPrayerAthanMs < cur ∧ iqTruthy times.iqamah then
        some ⟨times.iqamah.getD 0, true⟩
      else
        some ⟨nextPrayerAthanMs, false⟩

/-- A validated athan entry (lib/types/prayer-times.ts `AthanEntry`): all six
daily times are present. -/
structure AthanEntry where
  date : String
  fajr : Int
  sunrise : Int
  dhuhr : Int
  asr : Int
  maghrib : Int
  isha : Int
deriving DecidableEq, Repr

/-- A validated iqamah entry (`IqamahEntry`): four mandatory congregation
times plus the optional Friday `jumuah1`/`jumuah2` sessions. -/
structure IqamahEntry where
  date : String
  fajr : Int
  dhuhr : Int
  asr : Int
  isha : Int
  jumuah1 : Option Int
  jumuah2 : Option Int
deriving DecidableEq, Repr

/-- The statically imported, validated yearly data of lib/prayer-data.ts:
exactly the years 2025 and 2026 are bundled. -/
structure PrayerDataDB where
  athan2025 : List AthanEntry
  athan2026 : List AthanEntry
  iqamah2025 : List IqamahEntry
  iqamah2026 : List IqamahEntry
deriving DecidableEq, Repr

/-- `Number.parseInt` applied to a digit sequence: the longest digit prefix,
`none` modelling `NaN` when there is none. -/
def parseIntPrefix (cs : List Char) : Option Nat :=
  let ds := cs.takeWhile (fun c => decide ('0' ≤ c) && decide (c ≤ '9'))
  if ds = [] then none
  else some (ds.foldl (fun acc c => acc * 10 + (c.toNat - 48)) 0)

/-- `Number.parseInt(dateString.substring(0, 4), 10)`: the longest digit
prefix of the first four characters; `none` models `NaN`. -/
def getYearOfDateString (dateString : String) : Option Nat :=
  parseIntPrefix (dateString.data.take 4)

/-- `getAthanData`: `none` models the `PrayerDataError` thrown for a year
outside `isSupportedYear` (which `NaN` never passes). -/
def getAthanData (db : PrayerDataDB) (year : Option Nat) : Option (List AthanEntry) :=
  if year = some 2025 then some db.athan2025
  else if year = some 2026 then some db.athan2026
  else none

/-- `getIqamahData`, as `getAthanData`. -/
def getIqamahData (db : PrayerDataDB) (year : Option Nat) : Option (List IqamahEntry) :=
  if year = some 2025 then some db.iqamah2025
  else if year = some 2026 then some db.iqamah2026
  else none

/-- `findAthanByDate` (lib/prayer-data.ts): parse the year, load that year's
data — catching the unsupported-year error as `undefined` — and look the
date up. -/
def findAthanByDate (db : PrayerDataDB) (dateString : String) : Option AthanEntry :=
  (getAthanData db (getYearOfDateString dateString)).bind
    (fun data => data.find? (fun e => e.date = dateString))

/-- `findIqamahByDate` (lib/prayer-data.ts). -/
def findIqamahByDate (db : PrayerDataDB) (dateString : String) : Option IqamahEntry :=
  (getIqamahData db (getYearOfDateString dateString)).bind
    (fun data => data.find? (fun e => e.date = dateString))

/-- The `empty` default structure of `getCombinedPrayerTimes`: every leg
`undefined`, the requested date preserved. -/
def emptyCombinedTimes (dateString : String) : CombinedPrayerTimes where
  date := dateString
  fajr := ⟨none, none⟩
  sunrise := ⟨none, none⟩
  dhuhr := ⟨none, none⟩
  jumuah1 := ⟨none, none⟩
  jumuah2 := ⟨none, none⟩
  asr := ⟨none, none⟩
  maghrib := ⟨none, none⟩
  isha := ⟨none, none⟩

/-- `getCombinedPrayerTimes` (lib/prayer-data.ts) with the per-prayer loop
unrolled into the record it produces:
fajr/sunrise/dhuhr/asr/maghrib/isha take their own athan; `jumuah1` reuses
the dhuhr athan exactly when the day's iqamah record carries a `jumuah1`
time (`hasJumuah`); `jumuah2` never has an athan; dhuhr's iqamah is
suppressed under `hasJumuah`; maghrib's iqamah always copies its athan;
sunrise has no iqamah property in `IqamahEntry`, so indexing yields
`undefined`; everything else takes the iqamah record's field when that
record exists. -/
def getCombinedPrayerTimes (db : PrayerDataDB) (dateString : String) : CombinedPrayerTimes :=
  let athanTimes := findAthanByDate db dateString
  let iqamahTimes := findIqamahByDate db dateString
  match athanTimes with
  | none => emptyCombinedTimes dateString
  | some a =>
    let hasJumuah := (iqamahTimes.bind (fun i => i.jumuah1)) ≠ none
    { date := dateString
      fajr := ⟨some a.fajr, iqamahTimes.map (fun i => i.fajr)⟩
      sunrise := ⟨some a.sunrise, none⟩
      dhuhr := ⟨some a.dhuhr,
                if hasJumuah then none else iqamahTimes.map (fun i => i.dhuhr)⟩
      jumuah1 := ⟨if hasJumuah then some a.dhuhr else none,
                  iqamahTimes.bind (fun i => i.jumuah1)⟩
      jumuah2 := ⟨none, iqamahTimes.bind (fun i => i.jumuah2)⟩
      asr := ⟨some a.asr, iqamahTimes.map (fun i => i.asr)⟩
      maghrib := ⟨some a.maghrib, some a.maghrib⟩
      isha := ⟨some a.isha, iqamahTimes.map (fun i => i.isha)⟩ }

/-- State of the hook's timer bookkeeping: whether
`prayerNowTimeoutRef.current` holds a handle, how many scheduled,
uncancelled, unfired `setTimeout` callbacks exist in the environment, and
the `showPrayerNow` flag. -/
structure TimerState where
  refArmed : Bool
  outstanding : Nat
  showPrayerNow : Bool
deriving DecidableEq, Repr

/-- Initial state: no timer, nothing outstanding, not holding. -/
def initTimerState : TimerState := ⟨false, 0, false⟩

/-- `if (prayerNowTimeoutRef.current) { clearTimeout(...); ... = null }` —
the effect-cleanup body (and the cancel half of arming). -/
def clearRefTimeout (s : TimerState) : TimerState :=
  if s.refArmed then ⟨false, s.outstanding - 1, s.showPrayerNow⟩ else s

/-- The holding-state block of the main effect (use-prayer-page-state.ts
lines 212-242): when a previous prayer exists, evaluate the holding
predicate with the per-prayer duration; on entering, cancel any existing
timeout and arm a fresh one; on leaving, clear the flag. -/
def holdingStep (prev : Option PreviousPrayerMsResult) (cur : Int)
    (s : TimerState) : TimerState :=
  match prev with
  | none => s
  | some p =>
    let withinHoldingPeriod :=
      isWithinPrayerHoldingPeriodMs p.iqamahMs cur (.byPrayer p.prayer) none
    if s.showPrayerNow = false ∧ withinHoldingPeriod = true then
      let s1 := clearRefTimeout s
      ⟨true, s1.outstanding + 1, true⟩
    else if s.showPrayerNow = true ∧ withinHoldingPeriod = false then
      ⟨s.refArmed, s.outstanding, false⟩
    else s

/-- The observable events of the timer discipline: an evaluation tick
(React runs the previous effect's cleanup, then the new effect body), the
armed timeout firing, and unmount (cleanup only). -/
inductive TimerEvent where
  | tick (prev : Option PreviousPrayerMsResult) (cur : Int)
  | fire
  | teardown
deriving Repr

/-- One transition of the timer state machine.  A `fire` runs the
`setTimeout` callback: the timeout is consumed, the ref is nulled and
`showPrayerNow` reset; it can only occur for the armed timeout. -/
def timerStep (s : TimerState) : TimerEvent → TimerState
  | .tick prev cur => holdingStep prev cur (clearRefTimeout s)
  | .fire => if s.refArmed then ⟨false, s.outstanding - 1, false⟩ else s
  | .teardown => clearRefTimeout s

/-- The qualifying condition of the specification's `findNext`, per prayer of
the iteration order: the prayer has a present (truthy) athan or iqamah leg,
and its athan instant is still in the future or its iqamah instant is still
in the future. -/
def nextPrayerQualifies (pt : ParsedPrayerTimestamps) (cur : Int) (p : String) : Bool :=
  match pt p with
  | none => false
  | some t =>
    (decide (t.athan ≠ 0) || iqTruthy t.iqamah)
      && ((decide (t.athan ≠ 0) && decide (cur < t.athan))
          || (iqTruthy t.iqamah && decide (cur < t.iqamah.getD 0)))

/-- A prayer whose entry is missing or whose two legs are both falsy — the
"both legs absent" case of the specification. -/
def bothLegsFalsy (pt : ParsedPrayerTimestamps) (p : String) : Bool :=
  match pt p with
  | none => true
  | some t => decide (t.athan = 0) && !iqTruthy t.iqamah

/-- The specification's per-prayer builder for `findPrevious`: every prayer
with at least one present leg, with effective start equal to its athan
instant or, when the athan is absent, its iqamah instant. -/
def prevClaimBuilder (pt : ParsedPrayerTimestamps) (p : String) :
    Option PreviousPrayerMsResult :=
  match pt p with
  | none => none
  | some t =>
    if t.athan ≠ 0 then some ⟨p, t.athan, t.iqamah⟩
    else
      match t.iqamah with
      | some i => if i ≠ 0 then some ⟨p, i, t.iqamah⟩ else none
      | none => none

/-- A left-to-right scan selecting the qualifying entry with the maximal
effective start, preferring the earlier entry on ties; used to characterise
the sort-then-find of `getPreviousPrayerMs`. -/
def bestPrev (cur : Int) : List PreviousPrayerMsResult → Option PreviousPrayerMsResult
  | [] => none
  | a :: t =>
    match bestPrev cur t with
    | none => if a.athanMs ≤ cur then some a else none
    | some b =>
      if a.athanMs ≤ cur then (if a.athanMs < b.athanMs then some b else some a)
      else some b

/-- What `parsePrayerTimesToMs` stores for one prayer's pair. -/
def parsedEntryOf (details : PrayerTime) : PrayerTimesMs :=
  ⟨parseTimeToMs (details.athan <|> details.iqamah), details.iqamah⟩

/-- Forgetting the `Date`-vs-millisecond packaging of a previous-prayer
result. -/
def convToMs (r : PreviousPrayerResult) : PreviousPrayerMsResult :=
  ⟨r.prayer, r.athan, r.iqamah⟩

/-- Both legs of a prayer, when present, are strictly positive instants —
true of every real parse (epoch milliseconds of 2025/2026 dates), and the
condition under which JavaScript truthiness coincides with presence. -/
def legsPositive (t : PrayerTime) : Prop :=
  (∀ a, t.athan = some a → 0 < a) ∧ (∀ i, t.iqamah = some i → 0 < i)

/-- The weekday fixture of tests/unit/lib/prayer-calculations (2026-01-15),
times written as milliseconds from the day's midnight. -/
def mockWeekdayTimes : CombinedPrayerTimes where
  date := "2026-01-15"
  fajr := ⟨some 23400000, some 24300000⟩
  sunrise := ⟨some 28200000, none⟩
  dhuhr := ⟨some 45000000, some 46800000⟩
  jumuah1 := ⟨none, none⟩
  jumuah2 := ⟨none, none⟩
  asr := ⟨some 54000000, some 55800000⟩
  maghrib := ⟨some 61200000, some 61200000⟩
  isha := ⟨some 66600000, some 68400000⟩

/-- The Friday fixture (2026-01-16): dhuhr's iqamah suppressed, jumuah1
sharing dhuhr's athan, jumuah2 iqamah-only. -/
def mockFridayTimes : CombinedPrayerTimes where
  date := "2026-01-16"
  fajr := ⟨some 23400000, some 24300000⟩
  sunrise := ⟨some 28200000, none⟩
  dhuhr := ⟨some 45000000, none⟩
  jumuah1 := ⟨some 45000000, some 46800000⟩
  jumuah2 := ⟨none, some 49500000⟩
  asr := ⟨some 54000000, some 55800000⟩
  maghrib := ⟨some 61200000, some 61200000⟩
  isha := ⟨some 66600000, some 68400000⟩

/-- A concrete validated athan entry for 2025-01-15. -/
def cxAthanEntry : AthanEntry :=
  ⟨"2025-01-15", 23400000, 28200000, 45000000, 54000000, 61200000, 66600000⟩

/-- An iqamah entry that carries a `jumuah2` time but no `jumuah1` time —
schema-valid, since both fields are independently optional. -/
def cxIqamahJ2Only : IqamahEntry :=
  ⟨"2025-01-15", 24300000, 46800000, 55800000, 68400000, none, some 49500000⟩

/-- An iqamah entry for an active Friday (`jumuah1` and `jumuah2` present). -/
def cxIqamahFriday : IqamahEntry :=
  ⟨"2025-01-15", 24300000, 46800000, 55800000, 68400000, some 46800000, some 49500000⟩

/-- Database bundling the jumuah2-only entry under 2025. -/
def cxJ2DB : PrayerDataDB := ⟨[cxAthanEntry], [], [cxIqamahJ2Only], []⟩

/-- Database bundling the Friday entry under 2025. -/
def cxFridayDB : PrayerDataDB := ⟨[cxAthanEntry], [], [cxIqamahFriday], []⟩

/-- A parsed-timestamp map with two prayers tied at the same effective
start: dhuhr (athan only) and jumuah1 (same athan, with an iqamah). -/
def tiePt : ParsedPrayerTimestamps := fun key =>
  if key = "dhuhr" then some ⟨45000000, none⟩
  else if key = "jumuah1" then some ⟨45000000, some 46800000⟩
  else none

/-- The timer bookkeeping invariant: the outstanding-timeout count is `1`
exactly when the ref holds a handle, `0` otherwise. -/
def TimerInv (s : TimerState) : Prop :=
  s.outstanding = if s.refArmed then 1 else 0

/-- Ten consecutive prayer holding cycles: each cycle is an evaluation tick
at the prayer's iqamah instant (which arms the expiry timer) followed by the
timer firing. -/
def holdCycleEvents : List TimerEvent :=
  (List.range 10).flatMap (fun k =>
    [TimerEvent.tick (some ⟨"dhuhr", 1 + k, some (1 + k)⟩) (1 + k), TimerEvent.fire])

/- ------------------------------------------------------------------ -/
/- Theorems. -/
/- ------------------------------------------------------------------ -/

theorem clearRefTimeout_inv (s : TimerState) (h : TimerInv s) :
    TimerInv (clearRefTimeout s) ∧ (clearRefTimeout s).outstanding = 0
      ∧ (clearRefTimeout s).refArmed = false := by
  unfold TimerInv clearRefTimeout at *
  by_cases hr : s.refArmed <;> simp [hr] at h ⊢ <;> omega

theorem holdingStep_inv (prev : Option PreviousPrayerMsResult) (cur : Int)
    (t : TimerState) (h : TimerInv t) : TimerInv (holdingStep prev cur t) := by
  cases prev with
  | none => exact h
  | some p =>
    have h2 := (clearRefTimeout_inv t h).2.1
    simp only [holdingStep]
    split_ifs with hc1 hc2
    · unfold TimerInv
      simp [h2]
    · unfold TimerInv at h ⊢
      simpa using h
    · exact h

theorem timerStep_inv (s : TimerState) (e : TimerEvent) (h : TimerInv s) :
    TimerInv (timerStep s e) := by
  cases e with
  | tick prev cur => exact holdingStep_inv prev cur _ (clearRefTimeout_inv s h).1
  | fire =>
    unfold TimerInv timerStep at *
    by_cases hr : s.refArmed <;> simp [hr] at h ⊢ <;> omega
  | teardown => exact (clearRefTimeout_inv s h).1

theorem scanl_timerInv (evs : List TimerEvent) :
    ∀ s : TimerState, TimerInv s →
      ∀ x ∈ List.scanl timerStep s evs, TimerInv x := by
  induction evs with
  | nil =>
    intro s hs x hx
    simp [List.scanl] at hx
    simpa [hx] using hs
  | cons e rest ih =>
    intro s hs x hx
    simp [List.scanl] at hx
    rcases hx with hx | hx
    · simpa [hx] using hs
    · exact ih (timerStep s e) (timerStep_inv s e hs) x hx

theorem foldl_timerInv (evs : List TimerEvent) :
    ∀ s : TimerState, TimerInv s → TimerInv (List.foldl timerStep s evs) := by
  induction evs with
  | nil => intro s hs; simpa using hs
  | cons e rest ih =>
    intro s hs
    simpa using ih (timerStep s e) (timerStep_inv s e hs)

/-- C1: along every sequence of evaluation ticks, timer firings and
teardowns — in particular across any number of consecutive prayer holding
cycles — the hook's timer bookkeeping never has more than one outstanding
expiry timeout (arming cancels the previous one first), and a final
teardown leaves zero outstanding. -/
theorem singleTimer_discipline :
    ∀ evs : List TimerEvent,
      (∀ s ∈ List.scanl timerStep initTimerState evs, s.outstanding ≤ 1)
      ∧ (List.foldl timerStep initTimerState
          (evs ++ [TimerEvent.teardown])).outstanding = 0 := by
  intro evs
  have hinit : TimerInv initTimerState := by unfold TimerInv initTimerState; simp
  constructor
  · intro s hs
    have h := scanl_timerInv evs initTimerState hinit s hs
    unfold TimerInv at h
    by_cases hr : s.refArmed <;> simp [hr] at h <;> omega
  · rw [List.foldl_append]
    have h := foldl_timerInv evs initTimerState hinit
    have := (clearRefTimeout_inv _ h).2.1
    simpa [timerStep] using this

/-- Witness for C1 at ten concrete holding cycles. -/
theorem singleTimer_discipline_witness :
    ((⟨true, 1, true⟩ : TimerState) ∈ List.scanl timerStep initTimerState holdCycleEvents
      ∧ (1 : Nat) ≤ 1)
    ∧ (List.foldl timerStep initTimerState
        (holdCycleEvents ++ [TimerEvent.teardown])).outstanding = 0 := by
  have h := singleTimer_discipline holdCycleEvents
  exact ⟨⟨by decide, h.1 ⟨true, 1, true⟩ (by decide)⟩, h.2⟩

/-- C9: the default holding-duration table maps fajr to 15 minutes, dhuhr
and asr to 10, maghrib and isha to 15, the two jumuah sessions to 20 and
sunrise to 0; any string outside the table — whatever durations object is
supplied — falls back to the default table's dhuhr duration. -/
theorem holdingDurationTable_spec :
    (getPrayerHoldingDuration "fajr" DEFAULT_PRAYER_HOLDING_DURATIONS = 15 * 60 * 1000
      ∧ getPrayerHoldingDuration "sunrise" DEFAULT_PRAYER_HOLDING_DURATIONS = 0
      ∧ getPrayerHoldingDuration "dhuhr" DEFAULT_PRAYER_HOLDING_DURATIONS = 10 * 60 * 1000
      ∧ getPrayerHoldingDuration "jumuah1" DEFAULT_PRAYER_HOLDING_DURATIONS = 20 * 60 * 1000
      ∧ getPrayerHoldingDuration "jumuah2" DEFAULT_PRAYER_HOLDING_DURATIONS = 20 * 60 * 1000
      ∧ getPrayerHoldingDuration "asr" DEFAULT_PRAYER_HOLDING_DURATIONS = 10 * 60 * 1000
      ∧ getPrayerHoldingDuration "maghrib" DEFAULT_PRAYER_HOLDING_DURATIONS = 15 * 60 * 1000
      ∧ getPrayerHoldingDuration "isha" DEFAULT_PRAYER_HOLDING_DURATIONS = 15 * 60 * 1000)
    ∧ ∀ p : String, p ∉ PRAYER_ORDER → ∀ d : PrayerHoldingDurations,
        getPrayerHoldingDuration p d = DEFAULT_PRAYER_HOLDING_DURATIONS.dhuhr := by
  constructor
  · exact ⟨rfl, rfl, rfl, rfl, rfl, rfl, rfl, rfl⟩
  · intro p hp d
    simp [PRAYER_ORDER] at hp
    obtain ⟨h1, h2, h3, h4, h5, h6, h7, h8⟩ := hp
    simp [getPrayerHoldingDuration, durationsLookup, h1, h2, h3, h4, h5, h6, h7, h8]

/-- Witness for C9 at an unknown name and a custom table. -/
theorem holdingDurationTable_spec_witness :
    getPrayerHoldingDuration "tomorrowFajr" ⟨1, 2, 3, 4, 5, 6, 7, 8⟩
      = DEFAULT_PRAYER_HOLDING_DURATIONS.dhuhr :=
  holdingDurationTable_spec.2 "tomorrowFajr" (by decide) ⟨1, 2, 3, 4, 5, 6, 7, 8⟩

/-- C5: the holding predicate is the half-open interval
`[iqamah, iqamah + holdingDuration(prayer))` — it holds exactly when the
iqamah leg is present (a truthy instant) and the current instant lies in
the interval; it is true at the iqamah instant itself (for a positive
duration) and false at the expiry instant. -/
theorem holdingPeriod_halfOpen_spec :
    ∀ (p : String) (d : Option PrayerHoldingDurations),
      (∀ (iqamahMs : Option Int) (cur : Int),
        isWithinPrayerHoldingPeriodMs iqamahMs cur (.byPrayer p) d = true ↔
          ∃ iq, iqamahMs = some iq ∧ iq ≠ 0 ∧ iq ≤ cur ∧
            cur < iq + getPrayerHoldingDuration p (d.getD DEFAULT_PRAYER_HOLDING_DURATIONS))
      ∧ (∀ iq : Int, iq ≠ 0 →
          0 < getPrayerHoldingDuration p (d.getD DEFAULT_PRAYER_HOLDING_DURATIONS) →
          isWithinPrayerHoldingPeriodMs (some iq) iq (.byPrayer p) d = true)
      ∧ (∀ iq : Int,
          isWithinPrayerHoldingPeriodMs (some iq)
            (iq + getPrayerHoldingDuration p (d.getD DEFAULT_PRAYER_HOLDING_DURATIONS))
            (.byPrayer p) d = false) := by
  intro p d
  refine ⟨fun iqamahMs cur => ?_, fun iq h0 hd => ?_, fun iq => ?_⟩
  · cases iqamahMs with
    | none => simp [isWithinPrayerHoldingPeriodMs]
    | some iq =>
      by_cases h : iq = 0
      · subst h; simp [isWithinPrayerHoldingPeriodMs]
      · simp [isWithinPrayerHoldingPeriodMs, h]
  · simp [isWithinPrayerHoldingPeriodMs, h0]
    omega
  · by_cases h : iq = 0
    · subst h; simp [isWithinPrayerHoldingPeriodMs]
    · simp [isWithinPrayerHoldingPeriodMs, h]

/-- Witness for C5 at dhuhr's default 10-minute window. -/
theorem holdingPeriod_halfOpen_spec_witness :
    isWithinPrayerHoldingPeriodMs (some 46800000) 46800000
      (.byPrayer "dhuhr") none = true
    ∧ isWithinPrayerHoldingPeriodMs (some 46800000) (46800000 + 600000)
      (.byPrayer "dhuhr") none = false := by
  have h := holdingPeriod_halfOpen_spec "dhuhr" none
  exact ⟨h.2.1 46800000 (by decide) (by decide), h.2.2 46800000⟩

/-- C8: the remaining duration is `floor((target - current) / 1000)` seconds,
the displayed string adds one second of rounding compensation and formats it
as zero-padded `HH:MM:SS`, with no 24-hour wrap. -/
theorem countdownDisplay_spec :
    (∀ targetTime cur : Int,
      calculateCountdownSeconds targetTime cur = Int.fdiv (targetTime - cur) 1000)
    ∧ (∀ targetTime cur : Int,
      displayedCountdown targetTime cur
        = formatTimeToGo (Int.fdiv (targetTime - cur) 1000 + 1))
    ∧ formatTimeToGo 0 = "00:00:00"
    ∧ formatTimeToGo 3661 = "01:01:01"
    ∧ formatTimeToGo 90061 = "25:01:01" := by
  refine ⟨fun t c => rfl, fun t c => rfl, ?_, ?_, ?_⟩ <;> rfl

theorem nextPrayerMsGo_eq_find (pt : ParsedPrayerTimestamps) (cur : Int) :
    ∀ l : List String,
      nextPrayerMsGo pt cur l = (l.find? (nextPrayerQualifies pt cur)).getD "fajr" := by
  intro l
  induction l with
  | nil => simp [nextPrayerMsGo]
  | cons p rest ih =>
    cases hp : pt p with
    | none => simp [nextPrayerMsGo, List.find?_cons, nextPrayerQualifies, hp, ih]
    | some t =>
      cases hiq : t.iqamah with
      | none =>
        by_cases ha : t.athan = 0 <;> by_cases hca : cur < t.athan <;>
          simp [nextPrayerMsGo, List.find?_cons, nextPrayerQualifies, hp, hiq, ha,
            hca, iqTruthy, ih]
      | some i =>
        by_cases ha : t.athan = 0 <;> by_cases hi : i = 0 <;>
          by_cases hca : cur < t.athan <;> by_cases hci : cur < i <;>
          simp [nextPrayerMsGo, List.find?_cons, nextPrayerQualifies, hp, hiq, ha,
            hi, hca, hci, iqTruthy, ih]

/-- C2: `getNextPrayerMs` returns the first prayer in canonical display
order with a present leg whose athan or iqamah instant is still in the
future, falling back to the fajr sentinel when no prayer qualifies; a
prayer with both legs absent is never the found prayer. -/
theorem findNext_spec :
    ∀ (pt : ParsedPrayerTimestamps) (cur : Int),
      getNextPrayerMs pt cur
        = (PRAYER_ORDER.find? (nextPrayerQualifies pt cur)).getD "fajr"
      ∧ (∀ p : String, bothLegsFalsy pt p = true →
          PRAYER_ORDER.find? (nextPrayerQualifies pt cur) ≠ some p) := by
  intro pt cur
  constructor
  · exact nextPrayerMsGo_eq_find pt cur PRAYER_ORDER
  · intro p habs hfind
    have hq := List.find?_some hfind
    cases hp : pt p with
    | none => simp [nextPrayerQualifies, hp] at hq
    | some t =>
      simp [bothLegsFalsy, hp] at habs
      simp [nextPrayerQualifies, hp, habs.1, habs.2] at hq

/-- Witness for C2 on the parsed weekday fixture at 12:45. -/
theorem findNext_spec_witness :
    getNextPrayerMs (parsePrayerTimesToMs mockWeekdayTimes 109800000) 45900000 = "dhuhr"
    ∧ PRAYER_ORDER.find?
        (nextPrayerQualifies (parsePrayerTimesToMs mockWeekdayTimes 109800000) 45900000)
      ≠ some "jumuah1" := by
  have h := findNext_spec (parsePrayerTimesToMs mockWeekdayTimes 109800000) 45900000
  exact ⟨h.1.trans (by decide), h.2 "jumuah1" (by decide)⟩

/-- C7: for a date with no athan record the Timeline Builder returns the
all-absent timeline with the date preserved, and on that timeline both
locator families degrade: `findNext` yields the fajr sentinel and
`findPrevious` yields absent. -/
theorem unsupportedDate_degrades :
    ∀ (db : PrayerDataDB) (dateString : String) (cur tfm : Int),
      findAthanByDate db dateString = none →
      getCombinedPrayerTimes db dateString = emptyCombinedTimes dateString
      ∧ (getCombinedPrayerTimes db dateString).date = dateString
      ∧ getNextPrayerMs
          (parsePrayerTimesToMs (getCombinedPrayerTimes db dateString) tfm) cur = "fajr"
      ∧ getPreviousPrayerMs
          (parsePrayerTimesToMs (getCombinedPrayerTimes db dateString) tfm) cur = none
      ∧ getNextPrayer (getCombinedPrayerTimes db dateString) cur = ⟨"fajr", none⟩
      ∧ getPreviousPrayer (getCombinedPrayerTimes db dateString) cur = none := by
  intro db d cur tfm h
  have hT : getCombinedPrayerTimes db d = emptyCombinedTimes d := by
    simp [getCombinedPrayerTimes, h]
  refine ⟨hT, by rw [hT]; rfl, ?_, ?_, ?_, ?_⟩
  · rw [hT]
    simp [getNextPrayerMs, nextPrayerMsGo, PRAYER_ORDER, parsePrayerTimesToMs,
      emptyCombinedTimes, parseTimeToMs, iqTruthy]
  · rw [hT]
    simp [getPreviousPrayerMs, prevEntries, PRAYER_ORDER, parsePrayerTimesToMs,
      emptyCombinedTimes, parseTimeToMs, iqTruthy, sortAthanDesc]
  · rw [hT]
    simp [getNextPrayer, entriesOf, emptyCombinedTimes, nextLegQualifies]
  · rw [hT]
    simp [getPreviousPrayer, prevEntriesOf, entriesOf, emptyCombinedTimes, sortAthanAsc]

/-- Witness for C7 at the unsupported year 2024. -/
theorem unsupportedDate_degrades_witness :
    getCombinedPrayerTimes cxJ2DB "2024-01-15" = emptyCombinedTimes "2024-01-15"
    ∧ getNextPrayerMs
        (parsePrayerTimesToMs (getCombinedPrayerTimes cxJ2DB "2024-01-15") 0) 0 = "fajr"
    ∧ getPreviousPrayerMs
        (parsePrayerTimesToMs (getCombinedPrayerTimes cxJ2DB "2024-01-15") 0) 0 = none := by
  have h := unsupportedDate_degrades cxJ2DB "2024-01-15" 0 0 (by decide)
  exact ⟨h.1, h.2.2.1, h.2.2.2.1⟩

/-- C6 (amended): when the day's iqamah record has a `jumuah1` time, the
combined timeline suppresses dhuhr's iqamah, reuses dhuhr's athan for
jumuah1 and gives jumuah2 no athan; when it does not, jumuah1 is fully
absent, jumuah2 still has no athan but carries the record's `jumuah2`
iqamah when one is present, and dhuhr keeps its normal athan and iqamah
pair. -/
theorem jumuahSubstitution_spec (db : PrayerDataDB) (dateString : String) :
    ((findIqamahByDate db dateString).bind (fun i => i.jumuah1) ≠ none →
      (getCombinedPrayerTimes db dateString).dhuhr.iqamah = none
      ∧ (getCombinedPrayerTimes db dateString).jumuah1.athan
          = (getCombinedPrayerTimes db dateString).dhuhr.athan
      ∧ (getCombinedPrayerTimes db dateString).jumuah2.athan = none)
    ∧ ((findIqamahByDate db dateString).bind (fun i => i.jumuah1) = none →
      (getCombinedPrayerTimes db dateString).jumuah1 = ⟨none, none⟩
      ∧ (getCombinedPrayerTimes db dateString).jumuah2.athan = none
      ∧ (∀ a, findAthanByDate db dateString = some a →
          (getCombinedPrayerTimes db dateString).jumuah2.iqamah
            = (findIqamahByDate db dateString).bind (fun i => i.jumuah2)
          ∧ (getCombinedPrayerTimes db dateString).dhuhr
            = ⟨some a.dhuhr, (findIqamahByDate db dateString).map (fun i => i.dhuhr)⟩)) := by
  cases hA : findAthanByDate db dateString with
  | none =>
    have hT : getCombinedPrayerTimes db dateString = emptyCombinedTimes dateString := by
      simp [getCombinedPrayerTimes, hA]
    refine ⟨fun _ => ?_, fun _ => ?_⟩
    · rw [hT]; exact ⟨rfl, rfl, rfl⟩
    · rw [hT]
      refine ⟨rfl, rfl, fun a ha => ?_⟩
      exact absurd ha.symm (by simp)
  | some a =>
    by_cases hj : (findIqamahByDate db dateString).bind (fun i => i.jumuah1) = none
    · refine ⟨fun hc => absurd hj hc, fun _ => ?_⟩
      refine ⟨?_, ?_, fun a' ha' => ?_⟩
      · simp [getCombinedPrayerTimes, hA, hj]
      · simp [getCombinedPrayerTimes, hA, hj]
      · have haa : a' = a := by
          simpa using ha'.symm
        subst haa
        constructor
        · simp [getCombinedPrayerTimes, hA, hj]
        · simp [getCombinedPrayerTimes, hA, hj]
    · refine ⟨fun _ => ?_, fun hc => absurd hc hj⟩
      refine ⟨?_, ?_, ?_⟩ <;> simp [getCombinedPrayerTimes, hA, hj]

/-- Witness for C6's amended statement on a Friday database and the
jumuah2-only database. -/
theorem jumuahSubstitution_spec_witness :
    ((getCombinedPrayerTimes cxFridayDB "2025-01-15").dhuhr.iqamah = none
      ∧ (getCombinedPrayerTimes cxFridayDB "2025-01-15").jumuah1.athan
          = (getCombinedPrayerTimes cxFridayDB "2025-01-15").dhuhr.athan
      ∧ (getCombinedPrayerTimes cxFridayDB "2025-01-15").jumuah2.athan = none)
    ∧ (getCombinedPrayerTimes cxJ2DB "2025-01-15").jumuah1 = ⟨none, none⟩ := by
  have h1 := (jumuahSubstitution_spec cxFridayDB "2025-01-15").1 (by decide)
  have h2 := (jumuahSubstitution_spec cxJ2DB "2025-01-15").2 (by decide)
  exact ⟨h1, h2.1⟩

/-- Counterexample for C6 as stated: a schema-valid iqamah record carrying a
`jumuah2` time but no `jumuah1` time yields a timeline whose jumuah legs are
not fully absent although `jumuah1` is not present. -/
theorem jumuahSubstitution_counterexample :
    (findIqamahByDate cxJ2DB "2025-01-15").bind (fun i => i.jumuah1) = none
    ∧ (getCombinedPrayerTimes cxJ2DB "2025-01-15").jumuah2.iqamah = some 49500000
    ∧ ¬((getCombinedPrayerTimes cxJ2DB "2025-01-15").jumuah1 = ⟨none, none⟩
        ∧ (getCombinedPrayerTimes cxJ2DB "2025-01-15").jumuah2 = ⟨none, none⟩) := by
  decide

theorem find_insertAthanDesc (cur : Int) (e : PreviousPrayerMsResult) :
    ∀ s : List PreviousPrayerMsResult,
      (insertAthanDesc e s).find? (fun p => decide (p.athanMs ≤ cur))
        = (if e.athanMs ≤ cur then
            (match s.find? (fun p => decide (p.athanMs ≤ cur)) with
             | some b => if e.athanMs < b.athanMs then some b else some e
             | none => some e)
          else s.find? (fun p => decide (p.athanMs ≤ cur))) := by
  intro s
  induction s with
  | nil =>
    by_cases he : e.athanMs ≤ cur <;> simp [insertAthanDesc, List.find?, he]
  | cons b t ih =>
    simp only [insertAthanDesc]
    by_cases hbe : b.athanMs ≤ e.athanMs
    · by_cases he : e.athanMs ≤ cur
      · have hb : b.athanMs ≤ cur := le_trans hbe he
        simp [List.find?_cons, he, hb, if_pos hbe, not_lt.mpr hbe]
      · simp [List.find?_cons, he, if_pos hbe]
    · by_cases hb : b.athanMs ≤ cur
      · have he : e.athanMs ≤ cur := by omega
        simp only [if_neg hbe, List.find?_cons]
        simp [hb, he]
        rw [if_pos (by omega)]
      · simp only [if_neg hbe, List.find?_cons]
        simp [hb, ih]

theorem find_sortAthanDesc (cur : Int) :
    ∀ l, (sortAthanDesc l).find? (fun p => decide (p.athanMs ≤ cur)) = bestPrev cur l := by
  intro l
  induction l with
  | nil => simp [sortAthanDesc, bestPrev, List.find?]
  | cons a t ih =>
    simp only [sortAthanDesc, bestPrev]
    rw [find_insertAthanDesc cur a (sortAthanDesc t), ih]
    cases hb : bestPrev cur t with
    | none => by_cases ha : a.athanMs ≤ cur <;> simp [ha]
    | some b => by_cases ha : a.athanMs ≤ cur <;> simp [ha]

theorem bestPrev_spec (cur : Int) :
    ∀ l : List PreviousPrayerMsResult,
      (bestPrev cur l = none → ∀ e ∈ l, ¬(e.athanMs ≤ cur))
      ∧ (∀ r, bestPrev cur l = some r →
          r ∈ l ∧ r.athanMs ≤ cur
          ∧ (∀ e ∈ l, e.athanMs ≤ cur → e.athanMs ≤ r.athanMs)
          ∧ l.find? (fun e => decide (e.athanMs = r.athanMs)) = some r) := by
  intro l
  induction l with
  | nil => simp [bestPrev]
  | cons a t ih =>
    constructor
    · intro hnone e he
      cases hbt : bestPrev cur t with
      | none =>
        by_cases ha : a.athanMs ≤ cur
        · simp [bestPrev, hbt, ha] at hnone
        · rcases List.mem_cons.mp he with rfl | het
          · exact ha
          · exact ih.1 hbt e het
      | some b => by_cases ha : a.athanMs ≤ cur <;>
          by_cases hab : a.athanMs < b.athanMs <;> simp [bestPrev, hbt, ha, hab] at hnone
    · intro r hr
      cases hbt : bestPrev cur t with
      | none =>
        by_cases ha : a.athanMs ≤ cur
        · simp [bestPrev, hbt, ha] at hr
          subst hr
          refine ⟨List.mem_cons_self a t, ha, ?_, ?_⟩
          · intro e he hq
            rcases List.mem_cons.mp he with rfl | het
            · exact le_refl _
            · exact absurd hq (ih.1 hbt e het)
          · simp [List.find?_cons]
        · simp [bestPrev, hbt, ha] at hr
      | some b =>
        have hb := ih.2 b hbt
        by_cases ha : a.athanMs ≤ cur
        · by_cases hab : a.athanMs < b.athanMs
          · simp [bestPrev, hbt, ha, hab] at hr
            subst hr
            refine ⟨List.mem_cons_of_mem a hb.1, hb.2.1, ?_, ?_⟩
            · intro e he hq
              rcases List.mem_cons.mp he with rfl | het
              · exact le_of_lt hab
              · exact hb.2.2.1 e het hq
            · have hne : ¬ (a.athanMs = b.athanMs) := by omega
              simp [List.find?_cons, hne]
              exact hb.2.2.2
          · simp [bestPrev, hbt, ha, hab] at hr
            subst hr
            refine ⟨List.mem_cons_self a t, ha, ?_, ?_⟩
            · intro e he hq
              rcases List.mem_cons.mp he with rfl | het
              · exact le_refl _
              · exact le_trans (hb.2.2.1 e het hq) (by omega)
            · simp [List.find?_cons]
        · simp [bestPrev, hbt, ha] at hr
          subst hr
          refine ⟨List.mem_cons_of_mem a hb.1, hb.2.1, ?_, ?_⟩
          · intro e he hq
            rcases List.mem_cons.mp he with rfl | het
            · exact absurd hq ha
            · exact hb.2.2.1 e het hq
          · have hne : ¬ (a.athanMs = b.athanMs) := by
              have := hb.2.1
              omega
            simp [List.find?_cons, hne]
            exact hb.2.2.2

/-- C3: `getPreviousPrayerMs` builds, over the canonical order, exactly the
prayers with a present leg with effective start athan-else-iqamah; it
returns `none` exactly when no effective start is at or before now, and
otherwise a qualifying entry with the maximal effective start that is the
first among equals in canonical order. -/
theorem findPrevious_spec :
    ∀ (pt : ParsedPrayerTimestamps) (cur : Int),
      prevEntries pt = PRAYER_ORDER.filterMap (prevClaimBuilder pt)
      ∧ (getPreviousPrayerMs pt cur = none ↔ ∀ e ∈ prevEntries pt, ¬(e.athanMs ≤ cur))
      ∧ (∀ r, getPreviousPrayerMs pt cur = some r →
          r ∈ prevEntries pt ∧ r.athanMs ≤ cur
          ∧ (∀ e ∈ prevEntries pt, e.athanMs ≤ cur → e.athanMs ≤ r.athanMs)
          ∧ (prevEntries pt).find? (fun e => decide (e.athanMs = r.athanMs)) = some r) := by
  intro pt cur
  have hfind : getPreviousPrayerMs pt cur = bestPrev cur (prevEntries pt) :=
    find_sortAthanDesc cur (prevEntries pt)
  refine ⟨?_, ?_, ?_⟩
  · unfold prevEntries
    have hfun : (fun p =>
        match pt p with
        | none => none
        | some times =>
          if times.athan = 0 ∧ iqTruthy times.iqamah = false then none
          else some (⟨p, jsOrElse times.athan times.iqamah, times.iqamah⟩ :
            PreviousPrayerMsResult)) = prevClaimBuilder pt := by
      funext p
      cases hp : pt p with
      | none => simp [prevClaimBuilder, hp]
      | some t =>
        cases hiq : t.iqamah with
        | none =>
          by_cases ha : t.athan = 0 <;>
            simp [prevClaimBuilder, hp, hiq, ha, iqTruthy, jsOrElse]
        | some i =>
          by_cases ha : t.athan = 0 <;> by_cases hi : i = 0 <;>
            simp [prevClaimBuilder, hp, hiq, ha, hi, iqTruthy, jsOrElse]
    rw [hfun]
  · rw [hfind]
    constructor
    · exact (bestPrev_spec cur (prevEntries pt)).1
    · intro h
      cases hbp : bestPrev cur (prevEntries pt) with
      | none => rfl
      | some r =>
        have hs := (bestPrev_spec cur (prevEntries pt)).2 r hbp
        exact absurd hs.2.1 (h r hs.1)
  · intro r hr
    rw [hfind] at hr
    exact (bestPrev_spec cur (prevEntries pt)).2 r hr

/-- Witness for C3 on a map with dhuhr and jumuah1 tied at the same
effective start. -/
theorem findPrevious_spec_witness :
    (⟨"dhuhr", 45000000, none⟩ : PreviousPrayerMsResult) ∈ prevEntries tiePt
    ∧ ((⟨"dhuhr", 45000000, none⟩ : PreviousPrayerMsResult).athanMs ≤ 46000000
    ∧ (∀ e ∈ prevEntries tiePt, e.athanMs ≤ 46000000 → e.athanMs ≤ 45000000)
    ∧ (prevEntries tiePt).find?
        (fun e => decide (e.athanMs = 45000000)) = some ⟨"dhuhr", 45000000, none⟩) := by
  have h := (findPrevious_spec tiePt 46000000).2.2 ⟨"dhuhr", 45000000, none⟩ (by decide)
  exact ⟨h.1, h.2.1, h.2.2.1, h.2.2.2⟩

/-- C4: the hook's countdown target selection, first match wins: (1) at or
after the effective Isha instant (iqamah if present else athan) the target
is tomorrow's fajr athan, counting to athan; (2) else if the next prayer's
effective athan has passed and its iqamah is present, the target is that
iqamah, counting to iqamah; (3) else the target is the next prayer's athan
(or its iqamah when athan is absent), counting to athan. -/
theorem countdownTarget_spec :
    ∀ (pt : ParsedPrayerTimestamps) (cur : Int) (isha tf times : PrayerTimesMs),
      pt "isha" = some isha → pt "tomorrowFajr" = some tf →
      pt (getNextPrayerMs pt cur) = some times →
      ¬(times.athan = 0 ∧ iqTruthy times.iqamah = false) →
      countdownDecision pt (getNextPrayerMs pt cur) cur =
        (if isha.iqamah.getD isha.athan ≤ cur then
          some ⟨tf.athan, false⟩
        else if jsOrElse times.athan times.iqamah < cur ∧ iqTruthy times.iqamah = true then
          some ⟨times.iqamah.getD 0, true⟩
        else some ⟨jsOrElse times.athan times.iqamah, false⟩) := by
  intro pt cur isha tf times hI hT hN hskip
  simp only [countdownDecision, hN, hI, hT]
  rw [if_neg hskip]
  cases hiq : isha.iqamah <;> simp [hiq]

/-- Witness for C4 on the parsed weekday fixture at 12:45: dhuhr's athan has
passed and its iqamah is pending, so the countdown targets the iqamah. -/
theorem countdownTarget_spec_witness :
    countdownDecision (parsePrayerTimesToMs mockWeekdayTimes 109800000)
      (getNextPrayerMs (parsePrayerTimesToMs mockWeekdayTimes 109800000) 45900000)
      45900000 = some ⟨46800000, true⟩ := by
  have h := countdownTarget_spec (parsePrayerTimesToMs mockWeekdayTimes 109800000)
    45900000 ⟨66600000, some 68400000⟩ ⟨109800000, none⟩ ⟨45000000, some 46800000⟩
    (by decide) (by decide) (by decide) (by decide)
  exact h.trans (by decide)

theorem parse_lookup (T : CombinedPrayerTimes) (tfm : Int)
    (hJ : T.jumuah1.iqamah = none) :
    ∀ e ∈ entriesOf T, parsePrayerTimesToMs T tfm e.1 = some (parsedEntryOf e.2) := by
  intro e he
  simp [entriesOf] at he
  rcases he with rfl | rfl | rfl | rfl | rfl | rfl | rfl | rfl <;>
    simp [parsePrayerTimesToMs, parsedEntryOf, hJ]

theorem nextQual_agree (pt : ParsedPrayerTimestamps) (cur : Int) (p : String)
    (t : PrayerTime) (hp : pt p = some (parsedEntryOf t))
    (hA : ∀ a, t.athan = some a → 0 < a) (hI : ∀ i, t.iqamah = some i → 0 < i) :
    nextPrayerQualifies pt cur p = nextLegQualifies cur t := by
  cases ha : t.athan with
  | none =>
    cases hi : t.iqamah with
    | none =>
      simp [nextPrayerQualifies, hp, nextLegQualifies, parsedEntryOf, ha, hi,
        parseTimeToMs, iqTruthy]
    | some i =>
      have hi0 : i ≠ 0 := by have := hI i hi; omega
      simp [nextPrayerQualifies, hp, nextLegQualifies, parsedEntryOf, ha, hi,
        parseTimeToMs, iqTruthy, hi0]
  | some a =>
    have ha0 : a ≠ 0 := by have := hA a ha; omega
    cases hi : t.iqamah with
    | none =>
      simp [nextPrayerQualifies, hp, nextLegQualifies, parsedEntryOf, ha, hi,
        parseTimeToMs, iqTruthy, ha0]
    | some i =>
      have hi0 : i ≠ 0 := by have := hI i hi; omega
      simp [nextPrayerQualifies, hp, nextLegQualifies, parsedEntryOf, ha, hi,
        parseTimeToMs, iqTruthy, ha0, hi0]

theorem find_map_agree (pt : ParsedPrayerTimestamps) (cur : Int) :
    ∀ l : List (String × PrayerTime),
      (∀ e ∈ l, nextPrayerQualifies pt cur e.1 = nextLegQualifies cur e.2) →
      (l.map Prod.fst).find? (nextPrayerQualifies pt cur)
        = (l.find? (fun e => nextLegQualifies cur e.2)).map Prod.fst := by
  intro l
  induction l with
  | nil => intro _; simp
  | cons e rest ih =>
    intro h
    have he := h e (List.mem_cons_self e rest)
    by_cases hq : nextLegQualifies cur e.2 = true
    · simp [List.find?_cons, he, hq]
    · have hq' : nextLegQualifies cur e.2 = false := by
        cases hn : nextLegQualifies cur e.2
        · rfl
        · exact absurd hn hq
      simp [List.find?_cons, he, hq',
        ih (fun x hx => h x (List.mem_cons_of_mem e hx))]

theorem nextPrayer_agree (T : CombinedPrayerTimes) (tfm cur : Int)
    (hJ : T.jumuah1.iqamah = none)
    (hpos : ∀ e ∈ entriesOf T, legsPositive e.2) :
    getNextPrayerMs (parsePrayerTimesToMs T tfm) cur = (getNextPrayer T cur).prayer := by
  have hq : ∀ e ∈ entriesOf T,
      nextPrayerQualifies (parsePrayerTimesToMs T tfm) cur e.1
        = nextLegQualifies cur e.2 :=
    fun e he => nextQual_agree _ _ _ _ (parse_lookup T tfm hJ e he)
      (hpos e he).1 (hpos e he).2
  have hrw : getNextPrayerMs (parsePrayerTimesToMs T tfm) cur
      = (((entriesOf T).find? (fun e => nextLegQualifies cur e.2)).map Prod.fst).getD
        "fajr" := by
    rw [getNextPrayerMs, nextPrayerMsGo_eq_find]
    rw [show PRAYER_ORDER = (entriesOf T).map Prod.fst from rfl]
    rw [find_map_agree (parsePrayerTimesToMs T tfm) cur _ hq]
  rw [hrw, getNextPrayer]
  cases (entriesOf T).find? (fun e => nextLegQualifies cur e.2) <;> simp

theorem filterMap_congr_mem {α β : Type} (l : List α) (f g : α → Option β)
    (h : ∀ e ∈ l, f e = g e) : l.filterMap f = l.filterMap g := by
  induction l with
  | nil => rfl
  | cons a t ih =>
    rw [List.filterMap_cons, List.filterMap_cons, h a (List.mem_cons_self a t),
      ih (fun e he => h e (List.mem_cons_of_mem a he))]

theorem prevBuilder_agree (pt : ParsedPrayerTimestamps) (p : String) (t : PrayerTime)
    (hp : pt p = some (parsedEntryOf t))
    (hA : ∀ a, t.athan = some a → 0 < a) (hI : ∀ i, t.iqamah = some i → 0 < i) :
    (match pt p with
     | none => none
     | some times =>
       if times.athan = 0 ∧ iqTruthy times.iqamah = false then none
       else some (⟨p, jsOrElse times.athan times.iqamah, times.iqamah⟩ :
         PreviousPrayerMsResult))
    = (match t.athan, t.iqamah with
       | none, none => (none : Option PreviousPrayerResult)
       | some a, iq => some ⟨p, a, iq⟩
       | none, some i => some ⟨p, i, some i⟩).map convToMs := by
  cases ha : t.athan with
  | none =>
    cases hi : t.iqamah with
    | none => simp [hp, parsedEntryOf, ha, hi, parseTimeToMs, iqTruthy]
    | some i =>
      have hi0 : i ≠ 0 := by have := hI i hi; omega
      simp [hp, parsedEntryOf, ha, hi, parseTimeToMs, iqTruthy, hi0, jsOrElse,
        convToMs]
  | some a =>
    have ha0 : a ≠ 0 := by have := hA a ha; omega
    cases hi : t.iqamah with
    | none =>
      simp [hp, parsedEntryOf, ha, hi, parseTimeToMs, iqTruthy, ha0, jsOrElse,
        convToMs]
    | some i =>
      simp [hp, parsedEntryOf, ha, hi, parseTimeToMs, iqTruthy, ha0, jsOrElse,
        convToMs]

theorem prevEntries_parse (T : CombinedPrayerTimes) (tfm : Int)
    (hJ : T.jumuah1.iqamah = none)
    (hpos : ∀ e ∈ entriesOf T, legsPositive e.2) :
    prevEntries (parsePrayerTimesToMs T tfm) = (prevEntriesOf T).map convToMs := by
  rw [prevEntries, prevEntriesOf]
  rw [show PRAYER_ORDER = (entriesOf T).map Prod.fst from rfl]
  rw [List.filterMap_map, List.map_filterMap]
  apply filterMap_congr_mem
  intro e he
  exact prevBuilder_agree (parsePrayerTimesToMs T tfm) e.1 e.2
    (parse_lookup T tfm hJ e he) (hpos e he).1 (hpos e he).2

theorem insertAthanAsc_mem (e : PreviousPrayerResult) :
    ∀ l x, x ∈ insertAthanAsc e l ↔ x = e ∨ x ∈ l := by
  intro l
  induction l with
  | nil => intro x; simp [insertAthanAsc]
  | cons b t ih =>
    intro x
    simp only [insertAthanAsc]
    by_cases h : e.athan ≤ b.athan
    · simp [h, List.mem_cons]
    · simp [h, List.mem_cons, ih]
      tauto

theorem insertAthanAsc_sorted (e : PreviousPrayerResult) :
    ∀ l, l.Pairwise (fun a b => a.athan ≤ b.athan) →
      (insertAthanAsc e l).Pairwise (fun a b => a.athan ≤ b.athan) := by
  intro l
  induction l with
  | nil => intro _; simp [insertAthanAsc]
  | cons b t ih =>
    intro hs
    rw [List.pairwise_cons] at hs
    simp only [insertAthanAsc]
    by_cases h : e.athan ≤ b.athan
    · rw [if_pos h]
      refine List.Pairwise.cons ?_ (List.Pairwise.cons hs.1 hs.2)
      intro x hx
      rcases List.mem_cons.mp hx with rfl | hxt
      · exact h
      · exact le_trans h (hs.1 x hxt)
    · rw [if_neg h]
      refine List.Pairwise.cons ?_ (ih hs.2)
      intro x hx
      rcases (insertAthanAsc_mem e t x).mp hx with rfl | hxt
      · omega
      · exact hs.1 x hxt

theorem sortAthanAsc_sorted :
    ∀ l : List PreviousPrayerResult,
      (sortAthanAsc l).Pairwise (fun a b => a.athan ≤ b.athan) := by
  intro l
  induction l with
  | nil => simp [sortAthanAsc]
  | cons a t ih => exact insertAthanAsc_sorted a _ ih

theorem sortAthanAsc_mem :
    ∀ (l : List PreviousPrayerResult) x, x ∈ sortAthanAsc l ↔ x ∈ l := by
  intro l
  induction l with
  | nil => intro x; simp [sortAthanAsc]
  | cons a t ih =>
    intro x
    simp only [sortAthanAsc]
    rw [insertAthanAsc_mem, ih, List.mem_cons]

theorem find_sortedDescD_spec (cur : Int) :
    ∀ l : List PreviousPrayerResult,
      l.Pairwise (fun a b => b.athan ≤ a.athan) →
      ∀ r, l.find? (fun p => decide (p.athan ≤ cur)) = some r →
        r ∈ l ∧ r.athan ≤ cur ∧ ∀ e ∈ l, e.athan ≤ cur → e.athan ≤ r.athan := by
  intro l
  induction l with
  | nil =>
    intro _ r hr
    simp [List.find?] at hr
  | cons a t ih =>
    intro hs r hr
    rw [List.pairwise_cons] at hs
    by_cases hq : a.athan ≤ cur
    · simp [List.find?_cons, hq] at hr
      subst hr
      refine ⟨List.mem_cons_self a t, hq, ?_⟩
      intro e he hqe
      rcases List.mem_cons.mp he with rfl | het
      · exact le_refl _
      · exact le_trans (hs.1 e het) (le_refl _)
    · simp [List.find?_cons, hq] at hr
      have hrt := ih hs.2 r hr
      refine ⟨List.mem_cons_of_mem a hrt.1, hrt.2.1, ?_⟩
      intro e he hqe
      rcases List.mem_cons.mp he with rfl | het
      · exact absurd hqe hq
      · exact hrt.2.2 e het hqe

theorem pairwise_ne_unique :
    ∀ l : List PreviousPrayerResult, l.Pairwise (fun a b => a.athan ≠ b.athan) →
      ∀ x ∈ l, ∀ y ∈ l, x.athan = y.athan → x = y := by
  intro l
  induction l with
  | nil => simp
  | cons a t ih =>
    intro h x hx y hy hxy
    rw [List.pairwise_cons] at h
    rcases List.mem_cons.mp hx with rfl | hxt <;> rcases List.mem_cons.mp hy with rfl | hyt
    · rfl
    · exact absurd hxy (h.1 y hyt)
    · exact absurd hxy.symm (h.1 x hxt)
    · exact ih h.2 x hxt y hyt hxy

theorem prevPrayer_agree (T : CombinedPrayerTimes) (tfm cur : Int)
    (hJ : T.jumuah1.iqamah = none)
    (hpos : ∀ e ∈ entriesOf T, legsPositive e.2)
    (hdist : (prevEntriesOf T).Pairwise (fun a b => a.athan ≠ b.athan)) :
    (getPreviousPrayerMs (parsePrayerTimesToMs T tfm) cur).map
        (fun r => (r.prayer, r.athanMs, r.iqamahMs))
      = (getPreviousPrayer T cur).map (fun r => (r.prayer, r.athan, r.iqamah)) := by
  have hMs : getPreviousPrayerMs (parsePrayerTimesToMs T tfm) cur
      = bestPrev cur ((prevEntriesOf T).map convToMs) := by
    rw [show getPreviousPrayerMs (parsePrayerTimesToMs T tfm) cur
        = bestPrev cur (prevEntries (parsePrayerTimesToMs T tfm)) from
      find_sortAthanDesc cur (prevEntries (parsePrayerTimesToMs T tfm))]
    rw [prevEntries_parse T tfm hJ hpos]
  have hDdef : getPreviousPrayer T cur
      = ((sortAthanAsc (prevEntriesOf T)).reverse).find?
          (fun p => decide (p.athan ≤ cur)) := rfl
  have hsorted : ((sortAthanAsc (prevEntriesOf T)).reverse).Pairwise
      (fun a b => b.athan ≤ a.athan) := by
    rw [List.pairwise_reverse]
    exact sortAthanAsc_sorted (prevEntriesOf T)
  have hmemrev : ∀ x : PreviousPrayerResult,
      x ∈ (sortAthanAsc (prevEntriesOf T)).reverse ↔ x ∈ prevEntriesOf T := by
    intro x
    rw [List.mem_reverse, sortAthanAsc_mem]
  cases hD : ((sortAthanAsc (prevEntriesOf T)).reverse).find?
      (fun p => decide (p.athan ≤ cur)) with
  | none =>
    have hq : ∀ e ∈ prevEntriesOf T, ¬ (e.athan ≤ cur) := by
      intro e he
      have := List.find?_eq_none.mp hD e ((hmemrev e).mpr he)
      simpa using this
    have hbnone : bestPrev cur ((prevEntriesOf T).map convToMs) = none := by
      cases hbp : bestPrev cur ((prevEntriesOf T).map convToMs) with
      | none => rfl
      | some m =>
        have hm := (bestPrev_spec cur ((prevEntriesOf T).map convToMs)).2 m hbp
        obtain ⟨x, hxL, hxm⟩ := List.mem_map.mp hm.1
        have hxq : x.athan ≤ cur := by
          have h2 := hm.2.1
          rw [← hxm] at h2
          simpa [convToMs] using h2
        exact absurd hxq (hq x hxL)
    rw [hMs, hbnone, hDdef, hD]
    rfl
  | some r =>
    have hr := find_sortedDescD_spec cur _ hsorted r hD
    have hrL : r ∈ prevEntriesOf T := (hmemrev r).mp hr.1
    have hrmax : ∀ e ∈ prevEntriesOf T, e.athan ≤ cur → e.athan ≤ r.athan :=
      fun e he => hr.2.2 e ((hmemrev e).mpr he)
    have hnotnone : bestPrev cur ((prevEntriesOf T).map convToMs) ≠ none := by
      intro hn
      have := (bestPrev_spec cur ((prevEntriesOf T).map convToMs)).1 hn (convToMs r)
        (List.mem_map_of_mem convToMs hrL)
      exact this (by simpa [convToMs] using hr.2.1)
    cases hbp : bestPrev cur ((prevEntriesOf T).map convToMs) with
    | none => exact absurd hbp hnotnone
    | some m =>
      have hm := (bestPrev_spec cur ((prevEntriesOf T).map convToMs)).2 m hbp
      obtain ⟨x, hxL, hxm⟩ := List.mem_map.mp hm.1
      have hxq : x.athan ≤ cur := by
        have h2 := hm.2.1
        rw [← hxm] at h2
        simpa [convToMs] using h2
      have h1 : x.athan ≤ r.athan := hrmax x hxL hxq
      have h2 : r.athan ≤ x.athan := by
        have h3 := hm.2.2.1 (convToMs r) (List.mem_map_of_mem convToMs hrL)
          (by simpa [convToMs] using hr.2.1)
        rw [← hxm] at h3
        simpa [convToMs] using h3
      have hxr : x = r := pairwise_ne_unique (prevEntriesOf T) hdist x hxL r hrL
        (le_antisymm h1 h2)
      have hmr : m = convToMs r := by
        rw [← hxm, hxr]
      rw [hMs, hbp, hDdef, hD, hmr]
      simp [convToMs]

/-- C10 (amended): on every timeline with no active `jumuah1` iqamah (so the
parsed map does not drop dhuhr), positive present instants and pairwise
distinct effective starts, the millisecond-based locators agree with the
Date-based ones derived from the same timeline: `getNextPrayerMs` names the
prayer of `getNextPrayer`, and `getPreviousPrayerMs` names the same prayer
with the same athan/iqamah instants as `getPreviousPrayer`. -/
theorem msRefinement_spec :
    ∀ (T : CombinedPrayerTimes) (tfm cur : Int),
      T.jumuah1.iqamah = none →
      (∀ e ∈ entriesOf T, legsPositive e.2) →
      (prevEntriesOf T).Pairwise (fun a b => a.athan ≠ b.athan) →
      getNextPrayerMs (parsePrayerTimesToMs T tfm) cur = (getNextPrayer T cur).prayer
      ∧ (getPreviousPrayerMs (parsePrayerTimesToMs T tfm) cur).map
          (fun r => (r.prayer, r.athanMs, r.iqamahMs))
        = (getPreviousPrayer T cur).map (fun r => (r.prayer, r.athan, r.iqamah)) :=
  fun T tfm cur hJ hpos hdist =>
    ⟨nextPrayer_agree T tfm cur hJ hpos, prevPrayer_agree T tfm cur hJ hpos hdist⟩

/-- Witness for C10's amended statement on the weekday fixture at 12:45. -/
theorem msRefinement_spec_witness :
    getNextPrayerMs (parsePrayerTimesToMs mockWeekdayTimes 109800000) 45900000
      = (getNextPrayer mockWeekdayTimes 45900000).prayer
    ∧ (getPreviousPrayerMs (parsePrayerTimesToMs mockWeekdayTimes 109800000) 45900000).map
        (fun r => (r.prayer, r.athanMs, r.iqamahMs))
      = (getPreviousPrayer mockWeekdayTimes 45900000).map
        (fun r => (r.prayer, r.athan, r.iqamah)) :=
  msRefinement_spec mockWeekdayTimes 109800000 45900000 (by decide)
    (by
      intro e he
      simp [entriesOf] at he
      rcases he with rfl | rfl | rfl | rfl | rfl | rfl | rfl | rfl <;>
        exact ⟨by intro x hx; simp [mockWeekdayTimes] at hx <;> omega,
               by intro x hx; simp [mockWeekdayTimes] at hx <;> omega⟩)
    (by decide)

/-- Counterexample for C10 as stated: on the Friday fixture, the parsed map
drops dhuhr (matching the UI), so before dhuhr's athan the millisecond
locator answers jumuah1 while the Date-based locator answers dhuhr. -/
theorem msRefinement_counterexample :
    getNextPrayerMs (parsePrayerTimesToMs mockFridayTimes 109800000) 44000000
      = "jumuah1"
    ∧ (getNextPrayer mockFridayTimes 44000000).prayer = "dhuhr"
    ∧ ("jumuah1" : String) ≠ "dhuhr" := by
  decide
